import Mathlib

/-!
Verification of the bash-agent-evals repository: a shallow embedding of the
agent tool-loop, the tool adapters (filesystem, SQL, embedding search), the
output-truncation helpers and the Factuality scorer, together with theorems
settling the specification claims.

Strings model JavaScript strings (one Lean `Char` per UTF-16 unit), `Nat`
models non-negative JS integers, and `ℝ` models JS floating-point numbers.
-/

namespace BashAgentEvals

/-! ### Output truncation (src/tools/fs-tools.ts, src/tools/sql-tools.ts,
src/tools/codemode-tools.ts, src/agents/bash-agent.ts)

All four variants share the constant `MAX_OUTPUT_CHARS = 30000` and the shape
`output.slice(0, MAX_OUTPUT_CHARS)` plus a marker; they differ only in the
trailing advice sentence of the marker. -/

def MAX_OUTPUT_CHARS : Nat := 30000

/-- Model of JavaScript `s.slice(0, n)`: the first `n` characters of `s`. -/
def jsSlice (s : String) (n : Nat) : String :=
  String.mk (s.data.take n)

/-- Helper for `toLocaleString`: walk the digit list from the least
significant end (the list is reversed), inserting a comma before every
digit whose position from the right is a positive multiple of three. -/
def commaRev : List Char → Nat → List Char
  | [], _ => []
  | c :: cs, k =>
    if k ≠ 0 ∧ k % 3 = 0 then ',' :: c :: commaRev cs (k + 1)
    else c :: commaRev cs (k + 1)

/-- Model of JavaScript `Number.prototype.toLocaleString()` for a natural
number in the default en-US locale: decimal digits grouped in threes by
commas (`30000.toLocaleString() = "30,000"`). -/
def toLocaleString (n : Nat) : String :=
  String.mk ((commaRev (toString n).toList.reverse 0).reverse)

/-- The truncation marker appended by `truncateOutput` in
`src/tools/fs-tools.ts`; it is a function of the input length only. -/
def fsTruncationMarker (len : Nat) : String :=
  "\n\n[OUTPUT TRUNCATED: showing " ++ toLocaleString MAX_OUTPUT_CHARS ++ " of "
    ++ toLocaleString len
    ++ " characters. Use more specific queries or filters to narrow results.]"

/-- `truncateOutput` from `src/tools/fs-tools.ts`:
`if (output.length <= MAX_OUTPUT_CHARS) return output;` else the first
`MAX_OUTPUT_CHARS` characters plus the marker naming the original length. -/
def truncateOutput (output : String) : String :=
  if output.length ≤ MAX_OUTPUT_CHARS then output
  else
    let truncated := jsSlice output MAX_OUTPUT_CHARS
    truncated ++ fsTruncationMarker output.length

/-- The truncation marker appended by `truncateOutput` in
`src/tools/codemode-tools.ts`. -/
def codemodeTruncationMarker (len : Nat) : String :=
  "\n\n[OUTPUT TRUNCATED: showing " ++ toLocaleString MAX_OUTPUT_CHARS ++ " of "
    ++ toLocaleString len ++ " characters]"

/-- `truncateOutput` from `src/tools/codemode-tools.ts`. -/
def codemodeTruncateOutput (output : String) : String :=
  if output.length ≤ MAX_OUTPUT_CHARS then output
  else
    let truncated := jsSlice output MAX_OUTPUT_CHARS
    truncated ++ codemodeTruncationMarker output.length

/-- The truncation marker appended by `truncateOutput` in
`src/tools/sql-tools.ts`. -/
def sqlTruncationMarker (len : Nat) : String :=
  "\n\n[OUTPUT TRUNCATED: showing " ++ toLocaleString MAX_OUTPUT_CHARS ++ " of "
    ++ toLocaleString len
    ++ " characters. Use LIMIT or more specific WHERE clauses to narrow results.]"

/-- `truncateOutput` from `src/tools/sql-tools.ts`. -/
def sqlTruncateOutput (output : String) : String :=
  if output.length ≤ MAX_OUTPUT_CHARS then output
  else
    let truncated := jsSlice output MAX_OUTPUT_CHARS
    truncated ++ sqlTruncationMarker output.length

example : toLocaleString 30000 = "30,000" := by decide
example : toLocaleString 30001 = "30,001" := by decide
example : toLocaleString 999 = "999" := by decide
example : toLocaleString 1234567 = "1,234,567" := by decide
example : truncateOutput "hello" = "hello" := by decide

/-! ### The agent loop (src/agents/bash-agent.ts, fs-agent.ts, sql-agent.ts,
codemode-agent.ts, embedding-agent.ts)

All agent-loop functions share the same event-processing `switch` over
`stream.fullStream`, the same mutable run state (`fullText`, `totalTokens`,
`toolCallCount`), the same optional sink callbacks, and the same post-loop
step-budget check.  Sink callbacks are modelled as `Except`-valued functions:
`Except.error` models a thrown JavaScript exception.  The loop body performs
no exception handling, so a callback error short-circuits the whole loop,
exactly as an uncaught throw does in the `for await` body. -/

/-- The run state accumulated by one agent-loop invocation
(`fullText`, `totalTokens`, `toolCallCount` in the source). -/
structure AgentState where
  fullText : String
  totalTokens : Nat
  toolCallCount : Nat
  deriving DecidableEq, Repr

/-- The initial run state (`'' , 0, 0`). -/
def initialState : AgentState := ⟨"", 0, 0⟩

/-- `AgentResult` from `src/agents/bash-agent.ts`. -/
structure AgentResult where
  answer : String
  latencyMs : Nat
  tokens : Nat
  toolCalls : Nat
  deriving DecidableEq, Repr

/-- A tool result payload: the source distinguishes a string output from any
other value, which is rendered with `JSON.stringify`
(`typeof event.output === 'string' ? event.output : JSON.stringify(event.output)`).
The `json` constructor carries the `JSON.stringify` rendering of the value. -/
inductive ToolOutput where
  | str (s : String)
  | json (rendering : String)
  deriving DecidableEq, Repr

/-- The serialization applied to a tool result before it is handed to the
sink (`resultStr` in the source). -/
def serializeOutput : ToolOutput → String
  | .str s => s
  | .json r => r

/-- The preview handed to the `onToolResult` sink: `resultStr.slice(0, 500)`. -/
def toolResultPreview (output : ToolOutput) : String :=
  jsSlice (serializeOutput output) 500

/-- The events of `stream.fullStream` that the loop's `switch` distinguishes.
`other` stands for any event type the `switch` ignores. -/
inductive StreamEvent where
  | textDelta (text : String)
  | toolCall (toolName : String) (input : String)
  | toolResult (toolName : String) (output : ToolOutput)
  | finishStep (usageTotalTokens : Option Nat)
  | other
  deriving DecidableEq, Repr

/-- The sink callbacks (`StreamCallbacks` in `src/agents/bash-agent.ts`).
Every field is optional, mirroring `callbacks?.onX?.(…)`; a callback result
of `Except.error e` models the callback throwing `e`. -/
structure StreamCallbacks (ε : Type) where
  onText : Option (String → Except ε Unit) := none
  onToolCall : Option (String → String → Except ε Unit) := none
  onToolResult : Option (String → String → Except ε Unit) := none
  onProgress : Option (Nat → Nat → Except ε Unit) := none

/-- Invoke an optional one-argument callback (`cb?.(a)`). -/
def callOpt {α ε : Type} : Option (α → Except ε Unit) → α → Except ε Unit
  | none, _ => .ok ()
  | some f, a => f a

/-- Invoke an optional two-argument callback (`cb?.(a, b)`). -/
def callOpt2 {α β ε : Type} : Option (α → β → Except ε Unit) → α → β → Except ε Unit
  | none, _, _ => .ok ()
  | some f, a, b => f a b

/-- One iteration of the shared `for await (const event of stream.fullStream)`
`switch`.  State mutations happen exactly where the source performs them:
before the callback invocations of the same `case`. -/
def processEvent {ε : Type} (cbs : StreamCallbacks ε) (st : AgentState) :
    StreamEvent → Except ε AgentState
  | .textDelta t => do
    let st := { st with fullText := st.fullText ++ t }
    callOpt cbs.onText t
    pure st
  | .toolCall toolName input => do
    let st := { st with toolCallCount := st.toolCallCount + 1 }
    callOpt2 cbs.onToolCall toolName input
    callOpt2 cbs.onProgress st.toolCallCount st.totalTokens
    pure st
  | .toolResult toolName output => do
    callOpt2 cbs.onToolResult toolName (toolResultPreview output)
    pure st
  | .finishStep usage => do
    let st := { st with totalTokens := st.totalTokens + usage.getD 0 }
    callOpt2 cbs.onProgress st.toolCallCount st.totalTokens
    pure st
  | .other => pure st

/-- The event-processing loop: fold `processEvent` over the stream. -/
def runLoop {ε : Type} (cbs : StreamCallbacks ε) (events : List StreamEvent) :
    Except ε AgentState :=
  events.foldlM (processEvent cbs) initialState

/-- The state mutation of one event, with the callbacks erased. -/
def pureStep (st : AgentState) : StreamEvent → AgentState
  | .textDelta t => { st with fullText := st.fullText ++ t }
  | .toolCall _ _ => { st with toolCallCount := st.toolCallCount + 1 }
  | .toolResult _ _ => st
  | .finishStep usage => { st with totalTokens := st.totalTokens + usage.getD 0 }
  | .other => st

/-- The callback-free run state after a list of events. -/
def pureRun (events : List StreamEvent) : AgentState :=
  events.foldl pureStep initialState

/-- Finish reasons of a model step (`lastStep?.finishReason`); the check in
the source compares against the literal `'tool-calls'`. -/
inductive FinishReason where
  | stop
  | toolCalls
  | length
  | contentFilter
  | error
  | unknown
  deriving DecidableEq, Repr

/-- One entry of `await stream.steps`, as far as the loop inspects it. -/
structure Step where
  finishReason : FinishReason
  deriving DecidableEq, Repr

/-- `MAX_STEPS` from `src/agents/bash-agent.ts`. -/
def MAX_STEPS : Nat := 50

/-- `lastStep?.finishReason === 'tool-calls'`: `false` when the step list is
empty (optional chaining yields `undefined`). -/
def lastFinishIsToolCalls (steps : List Step) : Bool :=
  match steps.getLast? with
  | some s => s.finishReason = .toolCalls
  | none => false

/-- The step-limit error message
(`Agent reached maximum ${MAX_STEPS} steps without producing a final answer`). -/
def stepLimitMessage (maxSteps : Nat) : String :=
  "Agent reached maximum " ++ toString maxSteps ++ " steps without producing a final answer"

/-- The post-loop budget check and result construction shared by the agents:
`if (steps.length >= MAX_STEPS && lastStep?.finishReason === 'tool-calls')
throw …` else return the `AgentResult`. -/
def finishAgentRun (maxSteps : Nat) (steps : List Step) (st : AgentState)
    (latencyMs : Nat) : Except String AgentResult :=
  if steps.length ≥ maxSteps ∧ lastFinishIsToolCalls steps then
    .error (stepLimitMessage maxSteps)
  else
    .ok ⟨st.fullText, latencyMs, st.totalTokens, st.toolCallCount⟩

/-- A whole agent-loop invocation after the model stream is fixed: process
the events, then apply the budget check.  Errors are either a value thrown
by a sink callback or the step-limit error. -/
def runAgent (cbs : StreamCallbacks String) (events : List StreamEvent)
    (steps : List Step) (maxSteps : Nat) (latencyMs : Nat) :
    Except String AgentResult := do
  let st ← runLoop cbs events
  finishAgentRun maxSteps steps st latencyMs

/-- Number of `tool-call` events in a stream. -/
def countToolCalls (events : List StreamEvent) : Nat :=
  events.countP fun e => match e with | .toolCall _ _ => true | _ => false

/-- Sequencing a unit action before `pure a` can only succeed with value `a`. -/
theorem bindUnit_ok {ε α : Type} {x : Except ε Unit} {a b : α}
    (h : (x >>= fun _ => pure a) = Except.ok b) : b = a := by
  cases x with
  | ok u => cases h; rfl
  | error e => cases h

/-- A successful `processEvent` performs exactly the source's state mutation:
callbacks never alter the run state. -/
theorem processEvent_ok_eq {ε : Type} (cbs : StreamCallbacks ε) (st st' : AgentState)
    (ev : StreamEvent) (h : processEvent cbs st ev = .ok st') : st' = pureStep st ev := by
  cases ev with
  | textDelta t => exact (bindUnit_ok h).symm ▸ rfl
  | toolCall n i =>
    cases hc : callOpt2 cbs.onToolCall n i with
    | ok u =>
      rw [processEvent, hc] at h
      exact (bindUnit_ok h).symm ▸ rfl
    | error e => rw [processEvent, hc] at h; cases h
  | toolResult n o => exact (bindUnit_ok h).symm ▸ rfl
  | finishStep u => exact (bindUnit_ok h).symm ▸ rfl
  | other => cases h; rfl

/-- A successful fold of `processEvent` computes the callback-free state. -/
theorem foldlM_processEvent_ok {ε : Type} (cbs : StreamCallbacks ε) :
    ∀ (events : List StreamEvent) (st₀ st' : AgentState),
      List.foldlM (processEvent cbs) st₀ events = .ok st' →
      st' = events.foldl pureStep st₀ := by
  intro events
  induction events with
  | nil => intro st₀ st' h; cases h; rfl
  | cons e es ih =>
    intro st₀ st' h
    rw [List.foldlM_cons] at h
    cases he : processEvent cbs st₀ e with
    | ok st₁ =>
      rw [he] at h
      have := ih st₁ st' h
      rw [List.foldl_cons, ← processEvent_ok_eq cbs st₀ st₁ e he]
      exact this
    | error err => rw [he] at h; cases h

/-- If the loop returns a state at all, it is the callback-free state. -/
theorem runLoop_ok_eq_pureRun {ε : Type} (cbs : StreamCallbacks ε)
    (events : List StreamEvent) (st : AgentState)
    (h : runLoop cbs events = .ok st) : st = pureRun events :=
  foldlM_processEvent_ok cbs events initialState st h

/-- With no callbacks installed the loop always succeeds. -/
theorem runLoop_no_callbacks {ε : Type} (events : List StreamEvent) :
    runLoop (ε := ε) {} events = .ok (pureRun events) := by
  suffices h : ∀ st₀, List.foldlM (processEvent (ε := ε) {}) st₀ events =
      .ok (events.foldl pureStep st₀) from h initialState
  induction events with
  | nil => intro st₀; rfl
  | cons e es ih =>
    intro st₀
    rw [List.foldlM_cons, List.foldl_cons]
    have he : processEvent (ε := ε) {} st₀ e = .ok (pureStep st₀ e) := by
      cases e <;> rfl
    rw [he]
    exact ih (pureStep st₀ e)

/-- The callback-free fold counts one per `tool-call` event. -/
theorem foldl_pureStep_toolCallCount :
    ∀ (events : List StreamEvent) (st₀ : AgentState),
      (events.foldl pureStep st₀).toolCallCount = st₀.toolCallCount + countToolCalls events := by
  intro events
  induction events with
  | nil => intro st₀; simp [countToolCalls]
  | cons e es ih =>
    intro st₀
    rw [List.foldl_cons]
    rw [ih (pureStep st₀ e)]
    cases e <;> (simp [pureStep, countToolCalls, List.countP_cons]; try omega)

/-- Claim C1: once an invocation has exhausted its step budget
(`steps.length >= maxSteps`, with `MAX_STEPS = 50`, and `stepCountIs(20)` in
earlier variants), it fails with the step-limit error exactly when the final
step's finish reason is `tool-calls`; if the final step instead concluded
with a text (`stop`) finish reason, it succeeds and returns the
`AgentResult` built from the run state. -/
theorem step_budget_exhaustion (maxSteps latencyMs : Nat)
    (events : List StreamEvent) (steps : List Step)
    (h : maxSteps ≤ steps.length) :
    MAX_STEPS = 50 ∧
    (lastFinishIsToolCalls steps = true →
      runAgent {} events steps maxSteps latencyMs =
        .error (stepLimitMessage maxSteps)) ∧
    (∀ s, steps.getLast? = some s → s.finishReason = .stop →
      runAgent {} events steps maxSteps latencyMs =
        .ok ⟨(pureRun events).fullText, latencyMs, (pureRun events).totalTokens,
          (pureRun events).toolCallCount⟩) := by
  have hagent : runAgent {} events steps maxSteps latencyMs =
      finishAgentRun maxSteps steps (pureRun events) latencyMs := by
    unfold runAgent
    rw [runLoop_no_callbacks]
    rfl
  refine ⟨rfl, ?_, ?_⟩
  · intro hl
    rw [hagent, finishAgentRun, if_pos ⟨h, hl⟩, stepLimitMessage]
  · intro s hs hstop
    have hlast : lastFinishIsToolCalls steps = false := by
      rw [lastFinishIsToolCalls, hs]
      simp [hstop]
    rw [hagent, finishAgentRun, if_neg]
    intro hc
    rw [hlast] at hc
    exact Bool.false_ne_true hc.2

/-- Witness for C1 at concrete inputs: 50 steps ending mid-tool-use fail;
49 steps plus a final text step succeed. -/
theorem step_budget_exhaustion_witness :
    runAgent {} [.textDelta "partial"] (List.replicate 50 ⟨.toolCalls⟩) 50 3 =
      .error (stepLimitMessage 50) ∧
    runAgent {} [.textDelta "done"]
        (List.replicate 49 ⟨.toolCalls⟩ ++ [⟨.stop⟩]) 50 3 =
      .ok ⟨"done", 3, 0, 0⟩ := by
  constructor
  · exact (step_budget_exhaustion 50 3 [.textDelta "partial"]
      (List.replicate 50 ⟨.toolCalls⟩) (by decide)).2.1 (by decide)
  · exact (step_budget_exhaustion 50 3 [.textDelta "done"]
      (List.replicate 49 ⟨.toolCalls⟩ ++ [⟨.stop⟩]) (by decide)).2.2
      ⟨.stop⟩ (by decide) rfl

/-- Claim C3: whenever an invocation returns an `AgentResult`, its
`toolCalls` field equals the number of `tool-call` events of the stream,
for any installed sink callbacks. -/
theorem toolCalls_counts_events (cbs : StreamCallbacks String)
    (events : List StreamEvent) (steps : List Step)
    (maxSteps latencyMs : Nat) (res : AgentResult)
    (h : runAgent cbs events steps maxSteps latencyMs = .ok res) :
    res.toolCalls = countToolCalls events := by
  cases hr : runLoop cbs events with
  | error e =>
    rw [runAgent, hr] at h
    cases h
  | ok st =>
    rw [runAgent, hr] at h
    have hst : st = pureRun events := runLoop_ok_eq_pureRun cbs events st hr
    rw [show (Except.ok st >>= fun st => finishAgentRun maxSteps steps st latencyMs) =
      finishAgentRun maxSteps steps st latencyMs from rfl] at h
    rw [finishAgentRun] at h
    split at h
    · cases h
    · cases h
      show st.toolCallCount = countToolCalls events
      rw [hst, pureRun, foldl_pureStep_toolCallCount]
      simp [initialState]

/-- Witness for C3 at a concrete invocation with two tool calls. -/
theorem toolCalls_counts_events_witness :
    (AgentResult.mk "hi" 7 12 2).toolCalls =
      countToolCalls [.toolCall "bash" "ls", .textDelta "hi",
        .toolCall "bash" "wc", .finishStep (some 12), .toolResult "bash" (.str "ok")] :=
  toolCalls_counts_events {}
    [.toolCall "bash" "ls", .textDelta "hi",
      .toolCall "bash" "wc", .finishStep (some 12), .toolResult "bash" (.str "ok")]
    [⟨.stop⟩] 50 7 ⟨"hi", 7, 12, 2⟩ rfl

/-- Counterexample to claim C8 as stated: an exception thrown by the
`onText` sink is not caught by the loop — it propagates out of the whole
invocation, which fails with the thrown value instead of returning the
`AgentResult`. -/
theorem sink_throw_escapes_invocation :
    runAgent { onText := some fun _ => .error "sink exception" }
      [.textDelta "hi"] [⟨.stop⟩] 50 0 = .error "sink exception" := rfl

/-- Claim C8 (amended): the loop does not catch sink-callback exceptions — a
throwing sink aborts the invocation with the thrown value — but callbacks
cannot corrupt the run state: any state the loop completes with is exactly
the callback-free state, so callback return values never reach the
accumulated text, token count, tool-call count, or the model conversation. -/
theorem sink_cannot_alter_state {ε : Type} (cbs : StreamCallbacks ε)
    (events : List StreamEvent) (st : AgentState)
    (h : runLoop cbs events = .ok st) :
    st = pureRun events ∧ runLoop (ε := ε) {} events = .ok (pureRun events) :=
  ⟨runLoop_ok_eq_pureRun cbs events st h, runLoop_no_callbacks events⟩

/-- Witness for the amended C8: a benign `onText` sink completes and leaves
exactly the callback-free state. -/
theorem sink_cannot_alter_state_witness :
    AgentState.mk "ab" 0 0 = pureRun [.textDelta "a", .textDelta "b"] ∧
    runLoop (ε := String) {} [.textDelta "a", .textDelta "b"] =
      .ok (pureRun [.textDelta "a", .textDelta "b"]) :=
  sink_cannot_alter_state { onText := some fun _ => .ok () }
    [.textDelta "a", .textDelta "b"] ⟨"ab", 0, 0⟩ rfl

/-- Claim C10: the `onToolResult` sink receives `resultStr.slice(0, 500)` —
never more than the first 500 characters of the serialized tool output — and
whenever the serialized output (itself capped near 30,000 characters by the
tool-side truncation) exceeds 500 characters, the sink's preview is strictly
shorter than what is fed back to the model.  A sink that fails with its own
argument observes exactly that 500-character preview. -/
theorem toolResult_sink_preview (output : ToolOutput) (toolName : String)
    (st : AgentState) (h : 500 < (serializeOutput output).length) :
    (∀ o : ToolOutput, (toolResultPreview o).length ≤ 500) ∧
    (toolResultPreview output).length < (serializeOutput output).length ∧
    processEvent { onToolResult := some fun _ r => .error r } st
        (.toolResult toolName output) =
      .error (jsSlice (serializeOutput output) 500) := by
  have hlen : ∀ o : ToolOutput, (toolResultPreview o).length =
      min 500 (serializeOutput o).length := by
    intro o
    show ((serializeOutput o).data.take 500).length = min 500 (serializeOutput o).data.length
    exact List.length_take _ _
  refine ⟨?_, ?_, rfl⟩
  · intro o
    rw [hlen o]
    exact Nat.min_le_left _ _
  · rw [hlen output]
    omega

set_option maxRecDepth 4000 in
/-- Witness for C10 at a 501-character tool output. -/
theorem toolResult_sink_preview_witness :
    (toolResultPreview (.str (String.mk (List.replicate 501 'a')))).length <
      (serializeOutput (.str (String.mk (List.replicate 501 'a')))).length :=
  (toolResult_sink_preview (.str (String.mk (List.replicate 501 'a'))) "bash"
    initialState (by decide)).2.1

/-- Claim C2: truncation returns inputs of length at most 30,000 unchanged
(hence is idempotent on them) and maps longer inputs to exactly their first
30,000 characters followed by the variant's marker, which is a function of
the input length alone. -/
theorem truncateOutput_shape (s : String) (hlong : MAX_OUTPUT_CHARS < s.length) :
    MAX_OUTPUT_CHARS = 30000 ∧
    (∀ t : String, t.length ≤ MAX_OUTPUT_CHARS →
      truncateOutput t = t ∧ codemodeTruncateOutput t = t ∧ sqlTruncateOutput t = t) ∧
    truncateOutput s = jsSlice s MAX_OUTPUT_CHARS ++ fsTruncationMarker s.length ∧
    codemodeTruncateOutput s =
      jsSlice s MAX_OUTPUT_CHARS ++ codemodeTruncationMarker s.length ∧
    (jsSlice s MAX_OUTPUT_CHARS).data = s.data.take MAX_OUTPUT_CHARS ∧
    (jsSlice s MAX_OUTPUT_CHARS).length = MAX_OUTPUT_CHARS := by
  have hdata : s.length = s.data.length := rfl
  have hnot : ¬ s.length ≤ MAX_OUTPUT_CHARS := Nat.not_le.mpr hlong
  refine ⟨rfl, ?_, ?_, ?_, rfl, ?_⟩
  · intro t ht
    exact ⟨by rw [truncateOutput, if_pos ht],
      by rw [codemodeTruncateOutput, if_pos ht],
      by rw [sqlTruncateOutput, if_pos ht]⟩
  · rw [truncateOutput, if_neg hnot]
  · rw [codemodeTruncateOutput, if_neg hnot]
  · show (s.data.take MAX_OUTPUT_CHARS).length = MAX_OUTPUT_CHARS
    rw [List.length_take]
    exact Nat.min_eq_left (Nat.le_of_lt (hdata ▸ hlong))

set_option maxRecDepth 100000 in
/-- Witness for C2: a 30,001-character input is strictly truncated, and a
short input is returned unchanged. -/
theorem truncateOutput_shape_witness :
    (jsSlice (String.mk (List.replicate 30001 'x')) MAX_OUTPUT_CHARS).length =
      MAX_OUTPUT_CHARS ∧
    truncateOutput "abc" = "abc" := by
  have hlong : MAX_OUTPUT_CHARS < (String.mk (List.replicate 30001 'x')).length := by
    rw [String.length_mk, List.length_replicate, MAX_OUTPUT_CHARS]
    omega
  exact ⟨(truncateOutput_shape (String.mk (List.replicate 30001 'x')) hlong).2.2.2.2.2,
    ((truncateOutput_shape (String.mk (List.replicate 30001 'x')) hlong).2.1 "abc"
      (by decide)).1⟩

/-! ### The SQL query tool (src/tools/sql-tools.ts)

The `query` tool guards every request with a keyword whitelist before
anything touches the database:

```
const normalized = sql.trim().toUpperCase();
if (!normalized.startsWith('SELECT') && !normalized.startsWith('WITH')) {
  throw new Error('Only SELECT queries are allowed');
}
const results = database.prepare(sql).all();
```

`database.prepare(sql).all()` together with `JSON.stringify(results, null, 2)`
is abstracted as a function `runAll : String → String` from the statement to
its serialized result set.  The returned pair carries the list of statements
that were actually handed to `prepare`, so the theorem can state that a
rejected query never reaches the database. -/

/-- Model of JavaScript `String.prototype.trim()`: strips whitespace from
both ends. -/
def jsTrim (s : String) : String :=
  String.mk (((s.data.dropWhile Char.isWhitespace).reverse.dropWhile
    Char.isWhitespace).reverse)

/-- Model of JavaScript `String.prototype.toUpperCase()` (ASCII range). -/
def jsToUpperCase (s : String) : String :=
  String.mk (s.data.map Char.toUpper)

/-- Model of JavaScript `s.startsWith(p)`. -/
def jsStartsWith (s p : String) : Bool :=
  p.data.isPrefixOf s.data

/-- `sqlTools.query.execute` from `src/tools/sql-tools.ts`, returning the
tool result (or thrown error) together with the list of SQL statements that
reached `database.prepare`. -/
def sqlQuery (runAll : String → String) (sql : String) :
    Except String String × List String :=
  let normalized := jsToUpperCase (jsTrim sql)
  if !jsStartsWith normalized "SELECT" && !jsStartsWith normalized "WITH" then
    (.error "Only SELECT queries are allowed", [])
  else
    (.ok (sqlTruncateOutput (runAll sql)), [sql])

/-- A statement whose trimmed upper-cased text starts with neither keyword
is rejected before reaching the database. -/
theorem sqlQuery_guard_rejects (runAll : String → String) (sql : String)
    (h1 : jsStartsWith (jsToUpperCase (jsTrim sql)) "SELECT" = false)
    (h2 : jsStartsWith (jsToUpperCase (jsTrim sql)) "WITH" = false) :
    sqlQuery runAll sql = (.error "Only SELECT queries are allowed", []) := by
  simp only [sqlQuery]
  rw [h1, h2]
  rfl

/-- A statement whose trimmed upper-cased text starts with `SELECT` is
executed and its serialized result returned through truncation. -/
theorem sqlQuery_guard_accepts (runAll : String → String) (sql : String)
    (h1 : jsStartsWith (jsToUpperCase (jsTrim sql)) "SELECT" = true) :
    sqlQuery runAll sql = (.ok (sqlTruncateOutput (runAll sql)), [sql]) := by
  simp only [sqlQuery]
  rw [h1]
  rfl

/-- Claim C4: the query tool rejects every statement whose trimmed,
upper-cased text starts with neither `SELECT` nor `WITH`, raising the
explicit error before any statement reaches the database (empty prepared
list); every statement whose trimmed upper-cased text starts with `SELECT`
is executed and its serialized result returned.  In particular
`DROP TABLE issues` is rejected with no statement executed, and
`SELECT COUNT(*) FROM issues` is executed. -/
theorem sqlQuery_whitelist (runAll : String → String) (sql : String) :
    (jsStartsWith (jsToUpperCase (jsTrim sql)) "SELECT" = false →
     jsStartsWith (jsToUpperCase (jsTrim sql)) "WITH" = false →
      sqlQuery runAll sql = (.error "Only SELECT queries are allowed", [])) ∧
    (jsStartsWith (jsToUpperCase (jsTrim sql)) "SELECT" = true →
      sqlQuery runAll sql = (.ok (sqlTruncateOutput (runAll sql)), [sql])) ∧
    sqlQuery runAll "DROP TABLE issues" =
      (.error "Only SELECT queries are allowed", []) ∧
    sqlQuery runAll "SELECT COUNT(*) FROM issues" =
      (.ok (sqlTruncateOutput (runAll "SELECT COUNT(*) FROM issues")),
        ["SELECT COUNT(*) FROM issues"]) :=
  ⟨sqlQuery_guard_rejects runAll sql,
    sqlQuery_guard_accepts runAll sql,
    sqlQuery_guard_rejects runAll "DROP TABLE issues" (by decide) (by decide),
    sqlQuery_guard_accepts runAll "SELECT COUNT(*) FROM issues" (by decide)⟩

/-- Witness for C4: the two concrete statements of the claim. -/
theorem sqlQuery_whitelist_witness :
    sqlQuery (fun _ => "[]") "DROP TABLE issues" =
      (.error "Only SELECT queries are allowed", []) ∧
    sqlQuery (fun _ => "[]") "SELECT COUNT(*) FROM issues" =
      (.ok (sqlTruncateOutput "[]"), ["SELECT COUNT(*) FROM issues"]) :=
  ⟨(sqlQuery_whitelist (fun _ => "[]") "x").2.2.1,
    (sqlQuery_whitelist (fun _ => "[]") "SELECT COUNT(*) FROM issues").2.1 (by decide)⟩


/-! ### Path sanitization (src/tools/fs-tools.ts)

```
const DATA_DIR = join(process.cwd(), 'data/filesystem');
function sanitizePath(path: string): string {
  const resolved = join(DATA_DIR, path.replace(/^\\/+/, ''));
  if (!resolved.startsWith(DATA_DIR)) {
    throw new Error('Path escape attempt blocked');
  }
  return resolved;
}
```

`path.join` is modelled by POSIX path normalization over `'/'`-separated
components (`.` dropped, `..` popping one component, clamped at the absolute
root), which is its behavior for an absolute first argument.  `DATA_DIR` is
kept as a parameter since it depends on `process.cwd()`. -/

/-- `path.replace(/^\/+/, '')`: remove the leading run of slashes. -/
def stripLeadingSlashes (s : String) : String :=
  String.mk (s.data.dropWhile (· == '/'))

/-- Split a character list on `'/'` separators. -/
def splitOnSlash : List Char → List (List Char)
  | [] => [[]]
  | c :: cs =>
    match splitOnSlash cs with
    | [] => [[]]
    | g :: gs => if c = '/' then [] :: g :: gs else (c :: g) :: gs

/-- POSIX normalization of path components for an absolute path: empty and
`.` components vanish, `..` pops the previous component (and is dropped at
the root). -/
def normComponents (comps : List (List Char)) : List (List Char) :=
  comps.foldl
    (fun acc c =>
      if c = [] ∨ c = ['.'] then acc
      else if c = ['.', '.'] then acc.dropLast
      else acc ++ [c])
    []

/-- Model of Node `path.join(base, p)` for an absolute `base`. -/
def joinPath (base p : String) : String :=
  String.mk ('/' :: List.intercalate ['/']
    (normComponents (splitOnSlash (base.data ++ '/' :: p.data))))

/-- `sanitizePath` from `src/tools/fs-tools.ts`, parameterized by the
`DATA_DIR` corpus root. -/
def sanitizePath (dataDir path : String) : Except String String :=
  let resolved := joinPath dataDir (stripLeadingSlashes path)
  if jsStartsWith resolved dataDir then .ok resolved
  else .error "Path escape attempt blocked"

/-- Every filesystem tool resolves its path input through `sanitizePath`
before any filesystem access: `sanitizePath(path)` is the first statement of
each `execute`, and the glob tools use `path ? sanitizePath(path) : DATA_DIR`
for their optional path input. -/
def fsToolRoot (dataDir : String) : Option String → Except String String
  | some p => sanitizePath dataDir p
  | none => .ok dataDir

/-- `p` is within the directory rooted at `root`: it is the root itself or a
path below it.  This is what "inside the corpus root" means for a normalized
absolute path. -/
def isWithinRoot (root p : String) : Bool :=
  p == root || (root.data ++ ['/']).isPrefixOf p.data

set_option maxRecDepth 4000 in
/-- Counterexample to claim C5 as stated: with corpus root
`/app/data/filesystem` (cwd `/app`), the input `../filesystemEvil` resolves
to `/app/data/filesystemEvil` — a path outside the corpus root — yet
`sanitizePath` accepts it instead of raising the path-escape error, because
the guard is a string-prefix test and the sibling directory's name extends
the root's name. -/
theorem sanitizePath_prefix_collision :
    sanitizePath "/app/data/filesystem" "../filesystemEvil" =
      .ok "/app/data/filesystemEvil" ∧
    isWithinRoot "/app/data/filesystem" "/app/data/filesystemEvil" = false :=
  ⟨rfl, by decide⟩

/-- Claim C5 (amended): `sanitizePath` raises the path-escape error, before
any filesystem access, whenever the resolved path does not have the corpus
root as a *string prefix*; every path it returns has the corpus root as a
string prefix (though a sibling path whose final component extends the
root's name, e.g. root + `Evil`, passes the test while lying outside the
root directory — see the counterexample); and every filesystem tool routes
its path input through `sanitizePath` before touching the filesystem. -/
theorem sanitizePath_guard (dataDir path : String) :
    (jsStartsWith (joinPath dataDir (stripLeadingSlashes path)) dataDir = false →
      sanitizePath dataDir path = .error "Path escape attempt blocked") ∧
    (∀ r, sanitizePath dataDir path = .ok r →
      jsStartsWith r dataDir = true ∧
      r = joinPath dataDir (stripLeadingSlashes path)) ∧
    fsToolRoot dataDir (some path) = sanitizePath dataDir path := by
  refine ⟨?_, ?_, rfl⟩
  · intro h
    simp only [sanitizePath]
    rw [h]
    rfl
  · intro r hr
    simp only [sanitizePath] at hr
    by_cases h : jsStartsWith (joinPath dataDir (stripLeadingSlashes path)) dataDir = true
    · rw [if_pos h] at hr
      cases hr
      exact ⟨h, rfl⟩
    · rw [if_neg h] at hr
      cases hr

set_option maxRecDepth 4000 in
/-- Witness for the amended C5: a traversal that leaves the root's string
prefix is blocked before any filesystem access. -/
theorem sanitizePath_guard_witness :
    sanitizePath "/app/data/filesystem" "../../etc/passwd" =
      .error "Path escape attempt blocked" :=
  (sanitizePath_guard "/app/data/filesystem" "../../etc/passwd").1 (by decide)


/-! ### Cosine similarity (src/tools/embedding-tools.ts)

```
function cosineSimilarity(a, b, bOffset, dim) {
  let dotProduct = 0; let normA = 0; let normB = 0;
  for (let i = 0; i < dim; i++) {
    const aVal = a[i]; const bVal = b[bOffset + i];
    dotProduct += aVal * bVal; normA += aVal * aVal; normB += bVal * bVal;
  }
  return dotProduct / (Math.sqrt(normA) * Math.sqrt(normB));
}
```

Floating-point numbers are modelled by `ℝ` and `Math.sqrt` by `Real.sqrt`;
the accumulation loop is the sum over `i < dim`. -/

/-- `cosineSimilarity` from `src/tools/embedding-tools.ts`: the flat vector
`b` is read at offset `bOffset`, over `dim` components. -/
noncomputable def cosineSimilarity (a b : ℕ → ℝ) (bOffset dim : ℕ) : ℝ :=
  let dotProduct := (Finset.range dim).sum fun i => a i * b (bOffset + i)
  let normA := (Finset.range dim).sum fun i => a i * a i
  let normB := (Finset.range dim).sum fun i => b (bOffset + i) * b (bOffset + i)
  dotProduct / (Real.sqrt normA * Real.sqrt normB)

/-- Claim C6: cosine similarity is symmetric — reading `b` from its offset
as the first argument yields the same value — and self-similarity of a
vector that is nonzero on the scored window equals 1 exactly (the
floating-point computation matches to rounding). -/
theorem cosineSimilarity_symm_self (a b : ℕ → ℝ) (bOffset dim : ℕ)
    (h : ∃ i, i < dim ∧ a i ≠ 0) :
    cosineSimilarity a b bOffset dim =
      cosineSimilarity (fun i => b (bOffset + i)) a 0 dim ∧
    cosineSimilarity a a 0 dim = 1 := by
  constructor
  · simp only [cosineSimilarity, Nat.zero_add]
    have hdot : ((Finset.range dim).sum fun i => a i * b (bOffset + i)) =
        (Finset.range dim).sum fun i => b (bOffset + i) * a i :=
      Finset.sum_congr rfl fun i _ => mul_comm _ _
    rw [hdot, mul_comm (Real.sqrt ((Finset.range dim).sum fun i => a i * a i))]
  · simp only [cosineSimilarity, Nat.zero_add]
    have hpos : 0 < (Finset.range dim).sum fun i => a i * a i := by
      obtain ⟨i, hi, hai⟩ := h
      refine Finset.sum_pos' (fun j _ => mul_self_nonneg (a j)) ?_
      exact ⟨i, Finset.mem_range.mpr hi, mul_self_pos.mpr hai⟩
    rw [Real.mul_self_sqrt hpos.le]
    exact div_self hpos.ne'

/-- Witness for C6: the all-ones vector over two components has
self-similarity 1. -/
theorem cosineSimilarity_symm_self_witness :
    cosineSimilarity (fun _ => (1 : ℝ)) (fun _ => (1 : ℝ)) 0 2 = 1 :=
  (cosineSimilarity_symm_self (fun _ => (1 : ℝ)) (fun _ => (1 : ℝ)) 0 2
    ⟨0, by norm_num, one_ne_zero⟩).2


/-! ### The Factuality scorer retry wrapper (evals/shared.ts)

```
const MAX_SCORER_RETRIES = 3;
export const Factuality = async (args) => {
  let lastError: Error | null = null;
  for (let attempt = 1; attempt <= MAX_SCORER_RETRIES; attempt++) {
    try {
      const result = await FactualityBaseScorer({ ...args, maxTokens: 10_000 });
      if (result.score === null) {
        lastError = new Error('Scorer returned null score');
        continue;
      }
      return result;
    } catch (error) {
      lastError = error instanceof Error ? error : new Error(String(error));
    }
  }
  return { name: 'Factuality', score: null,
    metadata: { error: lastError?.message || 'Unknown error after retries',
                retries: MAX_SCORER_RETRIES } };
};
```

The underlying classifier call is abstracted as
`base : Nat → Except String ScorerResult`, giving the outcome of each
numbered attempt: `Except.error e` models a thrown error with message `e`,
`Except.ok r` a returned result whose `score` may be `none` (JS `null`).
The model returns the final scorer result paired with the number of
classifier calls actually made. -/

def MAX_SCORER_RETRIES : Nat := 3

/-- A scorer result `{name, score, metadata?}`; `errorMeta`/`retriesMeta`
model the diagnostic `metadata: {error, retries}` of the give-up result. -/
structure ScorerResult where
  name : String
  score : Option ℚ
  errorMeta : Option String := none
  retriesMeta : Option Nat := none
  deriving DecidableEq, Repr

/-- Attempt `k` produced no usable score: either the classifier threw, or it
returned a `null` score. -/
def attemptFails (base : Nat → Except String ScorerResult) (k : Nat) : Prop :=
  match base k with
  | .ok r => r.score = none
  | .error _ => True

/-- The `lastError.message` recorded after a failing attempt `k`. -/
def lastErrorMessage (base : Nat → Except String ScorerResult) (k : Nat) : String :=
  match base k with
  | .ok _ => "Scorer returned null score"
  | .error e => e

/-- The retry loop of `Factuality`: `fuel` is the number of attempts left,
`attempt` the 1-based attempt counter, `lastError` the recorded message of
the previous failure.  Returns the result together with the number of
classifier calls made. -/
def factualityGo (base : Nat → Except String ScorerResult) :
    Nat → Nat → Option String → ScorerResult × Nat
  | 0, _, lastError =>
    ({ name := "Factuality", score := none,
       errorMeta := some (lastError.getD "Unknown error after retries"),
       retriesMeta := some MAX_SCORER_RETRIES }, 0)
  | fuel + 1, attempt, _lastError =>
    match base attempt with
    | .ok r =>
      match r.score with
      | some _ => (r, 1)
      | none =>
        let p := factualityGo base fuel (attempt + 1) (some "Scorer returned null score")
        (p.1, p.2 + 1)
    | .error e =>
      let p := factualityGo base fuel (attempt + 1) (some e)
      (p.1, p.2 + 1)

/-- The `Factuality` scorer wrapper from `evals/shared.ts`. -/
def Factuality (base : Nat → Except String ScorerResult) : ScorerResult × Nat :=
  factualityGo base MAX_SCORER_RETRIES 1 none

/-- Stepping past one failing attempt records its error message and adds one
classifier call. -/
theorem factualityGo_fail_step (base : Nat → Except String ScorerResult)
    (fuel attempt : Nat) (lastError : Option String)
    (h : attemptFails base attempt) :
    factualityGo base (fuel + 1) attempt lastError =
      ((factualityGo base fuel (attempt + 1) (some (lastErrorMessage base attempt))).1,
       (factualityGo base fuel (attempt + 1) (some (lastErrorMessage base attempt))).2 + 1) := by
  cases hb : base attempt with
  | ok r =>
    have hs : r.score = none := by
      rw [attemptFails, hb] at h
      exact h
    simp [factualityGo, hb, hs, lastErrorMessage]
  | error e =>
    simp [factualityGo, hb, lastErrorMessage]

/-- An attempt that yields a usable score returns that result immediately,
after exactly this one classifier call. -/
theorem factualityGo_success_step (base : Nat → Except String ScorerResult)
    (fuel attempt : Nat) (lastError : Option String) (r : ScorerResult)
    (hb : base attempt = .ok r) (hs : r.score ≠ none) :
    factualityGo base (fuel + 1) attempt lastError = (r, 1) := by
  obtain ⟨v, hv⟩ := Option.ne_none_iff_exists'.mp hs
  simp [factualityGo, hb, hv]

/-- The loop never makes more calls than it has fuel. -/
theorem factualityGo_count_le (base : Nat → Except String ScorerResult) :
    ∀ (fuel attempt : Nat) (lastError : Option String),
      (factualityGo base fuel attempt lastError).2 ≤ fuel := by
  intro fuel
  induction fuel with
  | zero => intro attempt lastError; simp [factualityGo]
  | succ n ih =>
    intro attempt lastError
    cases hb : base attempt with
    | ok r =>
      cases hv : r.score with
      | some v => simp [factualityGo, hb, hv]
      | none =>
        simp only [factualityGo, hb, hv]
        exact Nat.succ_le_succ (ih (attempt + 1) _)
    | error e =>
      simp only [factualityGo, hb]
      exact Nat.succ_le_succ (ih (attempt + 1) _)

/-- Claim C7: the Factuality wrapper retries the classifier up to 3 times in
total; when all three attempts fail it returns (rather than throws) a result
with a `null` score whose metadata records the retry bound and the last
error message; the first attempt that yields a non-null score has its result
returned immediately, with no further classifier calls. -/
theorem factuality_retry (base : Nat → Except String ScorerResult) :
    MAX_SCORER_RETRIES = 3 ∧
    ((∀ k, 1 ≤ k → k ≤ MAX_SCORER_RETRIES → attemptFails base k) →
      Factuality base =
        ({ name := "Factuality", score := none,
           errorMeta := some (lastErrorMessage base MAX_SCORER_RETRIES),
           retriesMeta := some MAX_SCORER_RETRIES }, MAX_SCORER_RETRIES)) ∧
    (∀ k r, 1 ≤ k → k ≤ MAX_SCORER_RETRIES →
      (∀ j, 1 ≤ j → j < k → attemptFails base j) →
      base k = .ok r → r.score ≠ none →
      Factuality base = (r, k)) ∧
    (Factuality base).2 ≤ MAX_SCORER_RETRIES := by
  refine ⟨rfl, ?_, ?_, factualityGo_count_le base MAX_SCORER_RETRIES 1 none⟩
  · intro hall
    have h1 := hall 1 (by decide) (by decide)
    have h2 := hall 2 (by decide) (by decide)
    have h3 := hall 3 (by decide) (by decide)
    show factualityGo base 3 1 none = _
    rw [show (3 : Nat) = 2 + 1 from rfl, factualityGo_fail_step base 2 1 none h1]
    rw [show (2 : Nat) = 1 + 1 from rfl, factualityGo_fail_step base 1 2 _ h2]
    rw [show (1 : Nat) = 0 + 1 from rfl, factualityGo_fail_step base 0 3 _ h3]
    simp [factualityGo, MAX_SCORER_RETRIES]
  · intro k r hk1 hk3 hprev hb hs
    have hk3' : k ≤ 3 := hk3
    clear hk3
    interval_cases k
    · show factualityGo base 3 1 none = (r, 1)
      exact factualityGo_success_step base 2 1 none r hb hs
    · show factualityGo base 3 1 none = (r, 2)
      rw [show (3 : Nat) = 2 + 1 from rfl,
        factualityGo_fail_step base 2 1 none (hprev 1 (by norm_num) (by norm_num))]
      rw [factualityGo_success_step base 1 2 _ r hb hs]
    · show factualityGo base 3 1 none = (r, 3)
      rw [show (3 : Nat) = 2 + 1 from rfl,
        factualityGo_fail_step base 2 1 none (hprev 1 (by norm_num) (by norm_num))]
      rw [show (2 : Nat) = 1 + 1 from rfl,
        factualityGo_fail_step base 1 2 _ (hprev 2 (by norm_num) (by norm_num))]
      rw [factualityGo_success_step base 0 3 _ r hb hs]

/-- Witness for C7: a classifier that returns a null score on attempt 1 and
a score of 1 on attempt 2 yields that second result after exactly two calls. -/
theorem factuality_retry_witness :
    Factuality (fun k => if k = 1 then .ok ⟨"Factuality", none, none, none⟩
      else .ok ⟨"Factuality", some 1, none, none⟩) =
      (⟨"Factuality", some 1, none, none⟩, 2) :=
  (factuality_retry (fun k => if k = 1 then .ok ⟨"Factuality", none, none, none⟩
      else .ok ⟨"Factuality", some 1, none, none⟩)).2.2.1 2
    ⟨"Factuality", some 1, none, none⟩ (by norm_num) (by decide)
    (by
      intro j hj1 hj2
      have : j = 1 := by omega
      subst this
      simp [attemptFails])
    (by simp) (by simp)


/-! ### Embedding search (src/tools/embedding-tools.ts)

```
const queryCache = new Map<string, number[]>();
async function getQueryEmbedding(query: string): Promise<number[]> {
  const key = query.slice(0, 8000);
  if (queryCache.has(key)) return queryCache.get(key)!;
  const response = await openai.embeddings.create({ model: …, input: key });
  const embedding = response.data[0].embedding;
  queryCache.set(key, embedding);
  return embedding;
}
```

The external embedding API is abstracted as `embedAPI : String → E`, the
`Map` as an association list, and the model returns the embedding, the
updated cache, and whether an external call was made.

`searchSimilar` filters the index by the requested type partition, scores
every remaining item's stored vector with `cosineSimilarity` at offset
`item.offset * dim`, sorts descending by similarity (`(a, b) =>
b.similarity - a.similarity` under the stable Array.prototype.sort), and
slices the first `limit` results (`limit` defaults to 10 in the zod input
schema).  The final JSON rendering of the result list is omitted. -/

/-- `getQueryEmbedding` from `src/tools/embedding-tools.ts`. -/
def getQueryEmbedding {E : Type} (embedAPI : String → E)
    (cache : List (String × E)) (query : String) :
    E × List (String × E) × Bool :=
  let key := jsSlice query 8000
  match cache.lookup key with
  | some e => (e, cache, false)
  | none =>
    let e := embedAPI key
    (e, (key, e) :: cache, true)

/-- `'issue' | 'pull'` item kinds of the embedding index. -/
inductive ItemType where
  | issue
  | pull
  deriving DecidableEq, Repr

/-- The optional `type` argument of `searchSimilar`. -/
inductive SearchType where
  | issues
  | pulls
  | all
  deriving DecidableEq, Repr

/-- One entry of `EmbeddingIndex.items`. -/
structure EmbItem where
  id : Nat
  type : ItemType
  repo : String
  number : Nat
  title : String
  bodyPreview : Option String
  offset : Nat
  deriving DecidableEq, Repr

/-- The type-partition filter of `searchSimilar`. -/
def filterByType (ty : Option SearchType) (items : List EmbItem) : List EmbItem :=
  match ty with
  | some .issues => items.filter fun i => i.type == .issue
  | some .pulls => items.filter fun i => i.type == .pull
  | _ => items

/-- The similarity-scoring pass: every item of the (already filtered) list
is paired with the cosine similarity of the query embedding against its
stored vector at `item.offset * dim`. -/
noncomputable def searchResults (queryEmbedding embeddings : ℕ → ℝ) (dim : ℕ)
    (items : List EmbItem) : List (EmbItem × ℝ) :=
  items.map fun item =>
    (item, cosineSimilarity queryEmbedding embeddings (item.offset * dim) dim)

/-- The stable descending sort by similarity
(`results.sort((a, b) => b.similarity - a.similarity)`). -/
noncomputable def searchSorted (queryEmbedding embeddings : ℕ → ℝ) (dim : ℕ)
    (items : List EmbItem) : List (EmbItem × ℝ) :=
  (searchResults queryEmbedding embeddings dim items).mergeSort
    fun x y => decide (y.2 ≤ x.2)

/-- `limit` defaults to 10 (`z.number().default(10)`). -/
def searchLimitDefault : Nat := 10

/-- `searchSimilar` after the query embedding has been obtained: filter the
index to the requested partition, score, sort descending, return the first
`limit` results. -/
noncomputable def searchSimilar (queryEmbedding embeddings : ℕ → ℝ) (dim : ℕ)
    (items : List EmbItem) (ty : Option SearchType) (limit : Nat) :
    List (EmbItem × ℝ) :=
  (searchSorted queryEmbedding embeddings dim (filterByType ty items)).take limit

/-- Two queries whose first 8000 characters agree hit the same cache slot:
after embedding the first, the second makes no external call. -/
theorem getQueryEmbedding_collision {E : Type} (embedAPI : String → E)
    (q1 q2 : String) (hk : jsSlice q1 8000 = jsSlice q2 8000) :
    (getQueryEmbedding embedAPI
      ((getQueryEmbedding embedAPI [] q1).2.1) q2).2.2 = false := by
  have h1 : getQueryEmbedding embedAPI [] q1 =
      (embedAPI (jsSlice q1 8000),
        [(jsSlice q1 8000, embedAPI (jsSlice q1 8000))], true) := by
    simp [getQueryEmbedding, List.lookup]
  rw [h1]
  show (getQueryEmbedding embedAPI
    [(jsSlice q1 8000, embedAPI (jsSlice q1 8000))] q2).2.2 = false
  simp only [getQueryEmbedding, ← hk]
  simp [List.lookup_cons_self]

/-- Counterexample to claim C9 as stated: the query-embedding cache is keyed
by the first 8000 characters of the query text, not the exact text: two
distinct query texts agreeing on their first 8000 characters collide, so the
second `searchSimilar` call performs no external embedding call — they are
not embedded independently. -/
theorem queryCache_collision_counterexample :
    String.mk (List.replicate 8000 'a' ++ ['b']) ≠
      String.mk (List.replicate 8000 'a' ++ ['c']) ∧
    (getQueryEmbedding (fun s => s)
        ((getQueryEmbedding (fun s => s) []
          (String.mk (List.replicate 8000 'a' ++ ['b']))).2.1)
        (String.mk (List.replicate 8000 'a' ++ ['c']))).2.2 = false := by
  constructor
  · intro h
    have hdata : List.replicate 8000 'a' ++ ['b'] =
        List.replicate 8000 'a' ++ ['c'] := by
      injection h
    have hbc := List.append_cancel_left hdata
    simp at hbc
  · refine getQueryEmbedding_collision (fun s => s) _ _ ?_
    have hk1 : jsSlice (String.mk (List.replicate 8000 'a' ++ ['b'])) 8000 =
        String.mk (List.replicate 8000 'a') := by
      show String.mk ((List.replicate 8000 'a' ++ ['b']).take 8000) = _
      rw [List.take_left' (List.length_replicate 8000 'a')]
    have hk2 : jsSlice (String.mk (List.replicate 8000 'a' ++ ['c'])) 8000 =
        String.mk (List.replicate 8000 'a') := by
      show String.mk ((List.replicate 8000 'a' ++ ['c']).take 8000) = _
      rw [List.take_left' (List.length_replicate 8000 'a')]
    rw [hk1, hk2]

/-- Claim C9 (amended): the query embedding is cached keyed by the first
8000 characters of the query text — a repeated query makes at most one
external embedding call, and queries differing within their first 8000
characters are embedded independently (texts agreeing on that entire window
collide; see the counterexample); the embedding request itself carries the
truncated key.  `searchSimilar` scores every stored vector of the selected
type partition (the sorted list is a permutation of the scored partition),
sorts descending by similarity, and returns the top `limit` results, with
`limit` defaulting to 10: the output is the `limit`-prefix of the sorted
list, is itself sorted descending, and dominates every omitted result. -/
theorem embedding_search_behavior {E : Type} (embedAPI : String → E)
    (cache : List (String × E)) (q q1 q2 : String)
    (queryEmbedding embeddings : ℕ → ℝ) (dim limit : Nat)
    (items : List EmbItem) (ty : Option SearchType)
    (hq : jsSlice q1 8000 ≠ jsSlice q2 8000) :
    (getQueryEmbedding embedAPI
      ((getQueryEmbedding embedAPI cache q).2.1) q).2.2 = false ∧
    getQueryEmbedding embedAPI cache q =
      getQueryEmbedding embedAPI cache (jsSlice q 8000) ∧
    (getQueryEmbedding embedAPI [] q1).2.2 = true ∧
    (getQueryEmbedding embedAPI
      ((getQueryEmbedding embedAPI [] q1).2.1) q2).2.2 = true ∧
    (searchSorted queryEmbedding embeddings dim (filterByType ty items)).Perm
      (searchResults queryEmbedding embeddings dim (filterByType ty items)) ∧
    (searchSimilar queryEmbedding embeddings dim items ty limit).Pairwise
      (fun x y => y.2 ≤ x.2) ∧
    searchSimilar queryEmbedding embeddings dim items ty limit =
      (searchSorted queryEmbedding embeddings dim (filterByType ty items)).take
        limit ∧
    (∀ x ∈ searchSimilar queryEmbedding embeddings dim items ty limit,
      ∀ y ∈ (searchSorted queryEmbedding embeddings dim
        (filterByType ty items)).drop limit, y.2 ≤ x.2) ∧
    searchLimitDefault = 10 := by
  have htrans : ∀ (x y z : EmbItem × ℝ), decide (y.2 ≤ x.2) = true →
      decide (z.2 ≤ y.2) = true → decide (z.2 ≤ x.2) = true := by
    intro x y z hxy hyz
    rw [decide_eq_true_eq] at *
    exact le_trans hyz hxy
  have htotal : ∀ (x y : EmbItem × ℝ),
      (decide (y.2 ≤ x.2) || decide (x.2 ≤ y.2)) = true := by
    intro x y
    rcases le_total y.2 x.2 with h | h <;> simp [h]
  have hsorted := List.sorted_mergeSort htrans htotal
    (searchResults queryEmbedding embeddings dim (filterByType ty items))
  refine ⟨?_, ?_, ?_, ?_, ?_, ?_, rfl, ?_, rfl⟩
  · cases hc : cache.lookup (jsSlice q 8000) with
    | some e => simp [getQueryEmbedding, hc]
    | none => simp [getQueryEmbedding, hc]
  · have hkey : jsSlice (jsSlice q 8000) 8000 = jsSlice q 8000 := by
      show String.mk ((q.data.take 8000).take 8000) = String.mk (q.data.take 8000)
      rw [List.take_take, Nat.min_self]
    simp only [getQueryEmbedding, hkey]
  · simp [getQueryEmbedding, List.lookup]
  · have hne : (jsSlice q2 8000 == jsSlice q1 8000) = false :=
      beq_eq_false_iff_ne.mpr (Ne.symm hq)
    simp [getQueryEmbedding, List.lookup, hne]
  · exact List.mergeSort_perm _ _
  · refine List.Pairwise.imp (fun hxy => ?_)
      (List.Pairwise.sublist (List.take_sublist limit _) hsorted)
    exact of_decide_eq_true hxy
  · intro x hx y hy
    have hall : ((searchSorted queryEmbedding embeddings dim
        (filterByType ty items)).take limit ++
      (searchSorted queryEmbedding embeddings dim
        (filterByType ty items)).drop limit).Pairwise
        fun a b => decide (b.2 ≤ a.2) = true := by
      rw [List.take_append_drop]
      exact hsorted
    have := (List.pairwise_append.mp hall).2.2 x hx y hy
    exact of_decide_eq_true this

/-- Witness for the amended C9: queries `"a"` and `"b"` differ within the
8000-character window, so the second one triggers its own external
embedding call. -/
theorem embedding_search_behavior_witness :
    (getQueryEmbedding (fun s => s)
      ((getQueryEmbedding (fun s => s) [] "a").2.1) "b").2.2 = true :=
  (embedding_search_behavior (fun s => s) [] "a" "a" "b"
    (fun _ => 0) (fun _ => 0) 0 0 [] none (by decide)).2.2.2.1

end BashAgentEvals
